import Mathlib

/-!
Verification of the Kash client-side field-level encryption subsystem.

The definitions below are a shallow embedding of the encryption helpers that
the Kash budgeting client repeats across its pages
(src/routes/Add-Data/+page.svelte, src/routes/Transactions/+page.svelte,
src/sections/Transaction-History.svelte): base64 text encoding (btoa/atob),
AES-GCM field encryption, PBKDF2 key derivation, the localStorage key cache,
the Firestore key backup, and the per-record decrypt-with-fallback codec.

Browser built-ins (Web Crypto, TextEncoder, btoa/atob, Date parsing) are
external collaborators of the repository; they are modelled here, faithfully
to the specification's description of them, as executable Lean functions.
Repository code is translated statement by statement.
-/

namespace Kash

/-! ## Base64 (the browser built-ins btoa and atob)

The source encodes byte buffers with
btoa(String.fromCharCode(...bytes)) and decodes with
Uint8Array.from(atob(s), c => c.charCodeAt(0)).  `btoaBytes` and
`atobBytes` model these two compositions directly on byte lists
(bytes are natural numbers below 256).  `atobBytes` returns none where
atob would throw (a character outside the alphabet, or a length that is
not a multiple of four). -/

/-- The base64 alphabet used by btoa and atob. -/
def b64Alphabet : List Char :=
  "ABCDEFGHIJKLMNOPQRSTUVWXYZabcdefghijklmnopqrstuvwxyz0123456789+/".toList

/-- The base64 character for a 6-bit group. -/
def b64EncodeChar (i : Nat) : Char := b64Alphabet.getD i 'A'

/-- The 6-bit value of a base64 character; none for a character outside the
alphabet (where atob throws InvalidCharacterError). -/
def b64DecodeChar (c : Char) : Option Nat :=
  b64Alphabet.findIdx? (fun x => x = c)

/-- Base64-encode a byte list: each group of three bytes becomes four
alphabet characters, a trailing group of one or two bytes is padded
with the character for value 0 and with padding characters. -/
def b64encodeList : List Nat → List Char
  | [] => []
  | [a] => [b64EncodeChar (a / 4), b64EncodeChar (a % 4 * 16), '=', '=']
  | [a, b] => [b64EncodeChar (a / 4), b64EncodeChar (a % 4 * 16 + b / 16),
      b64EncodeChar (b % 16 * 4), '=']
  | a :: b :: c :: rest =>
    b64EncodeChar (a / 4) :: b64EncodeChar (a % 4 * 16 + b / 16) ::
      b64EncodeChar (b % 16 * 4 + c / 64) :: b64EncodeChar (c % 64) ::
      b64encodeList rest

/-- Base64-decode a character list, four characters at a time; padding is
accepted only at the very end.  none models atob throwing. -/
def b64decodeList : List Char → Option (List Nat)
  | [] => some []
  | w :: x :: y :: z :: rest =>
    match b64DecodeChar w, b64DecodeChar x with
    | some a, some b =>
      if y = '=' ∧ z = '=' ∧ rest = [] then some [a * 4 + b / 16]
      else
        match b64DecodeChar y with
        | some c =>
          if z = '=' ∧ rest = [] then some [a * 4 + b / 16, b % 16 * 16 + c / 4]
          else
            match b64DecodeChar z with
            | some d =>
              match b64decodeList rest with
              | some tail =>
                some ((a * 4 + b / 16) :: (b % 16 * 16 + c / 4) :: (c % 4 * 64 + d) :: tail)
              | none => none
            | none => none
        | none => none
    | _, _ => none
  | _ => none

/-- btoa(String.fromCharCode(...bytes)), as used by exportKey and encryptData. -/
def btoaBytes (bytes : List Nat) : String := String.mk (b64encodeList bytes)

/-- Uint8Array.from(atob(s), c => c.charCodeAt(0)), as used by importKey and
decryptData; none models atob throwing. -/
def atobBytes (s : String) : Option (List Nat) := b64decodeList s.data

theorem b64DecodeChar_encodeChar : ∀ i < 64, b64DecodeChar (b64EncodeChar i) = some i := by
  decide

theorem b64EncodeChar_ne_pad : ∀ i < 64, b64EncodeChar i ≠ '=' := by
  decide

/-- Decoding inverts encoding on genuine byte lists. -/
theorem b64decodeList_encodeList (l : List Nat) (h : ∀ b ∈ l, b < 256) :
    b64decodeList (b64encodeList l) = some l := by
  induction l using b64encodeList.induct with
  | case1 => rfl
  | case2 a =>
    have ha : a < 256 := h a (by simp)
    have h1 : b64DecodeChar (b64EncodeChar (a / 4)) = some (a / 4) :=
      b64DecodeChar_encodeChar _ (by omega)
    have h2 : b64DecodeChar (b64EncodeChar (a % 4 * 16)) = some (a % 4 * 16) :=
      b64DecodeChar_encodeChar _ (by omega)
    simp [b64encodeList, b64decodeList, h1, h2]
    omega
  | case3 a b =>
    have ha : a < 256 := h a (by simp)
    have hb : b < 256 := h b (by simp)
    have h1 : b64DecodeChar (b64EncodeChar (a / 4)) = some (a / 4) :=
      b64DecodeChar_encodeChar _ (by omega)
    have h2 : b64DecodeChar (b64EncodeChar (a % 4 * 16 + b / 16)) = some (a % 4 * 16 + b / 16) :=
      b64DecodeChar_encodeChar _ (by omega)
    have h3 : b64DecodeChar (b64EncodeChar (b % 16 * 4)) = some (b % 16 * 4) :=
      b64DecodeChar_encodeChar _ (by omega)
    have h3ne : b64EncodeChar (b % 16 * 4) ≠ '=' := b64EncodeChar_ne_pad _ (by omega)
    simp [b64encodeList, b64decodeList, h1, h2, h3, h3ne]
    constructor <;> omega
  | case4 a b c rest ih =>
    have ha : a < 256 := h a (by simp)
    have hb : b < 256 := h b (by simp)
    have hc : c < 256 := h c (by simp)
    have h1 : b64DecodeChar (b64EncodeChar (a / 4)) = some (a / 4) :=
      b64DecodeChar_encodeChar _ (by omega)
    have h2 : b64DecodeChar (b64EncodeChar (a % 4 * 16 + b / 16)) = some (a % 4 * 16 + b / 16) :=
      b64DecodeChar_encodeChar _ (by omega)
    have h3 : b64DecodeChar (b64EncodeChar (b % 16 * 4 + c / 64)) = some (b % 16 * 4 + c / 64) :=
      b64DecodeChar_encodeChar _ (by omega)
    have h4 : b64DecodeChar (b64EncodeChar (c % 64)) = some (c % 64) :=
      b64DecodeChar_encodeChar _ (by omega)
    have h3ne : b64EncodeChar (b % 16 * 4 + c / 64) ≠ '=' := b64EncodeChar_ne_pad _ (by omega)
    have h4ne : b64EncodeChar (c % 64) ≠ '=' := b64EncodeChar_ne_pad _ (by omega)
    have ihh : b64decodeList (b64encodeList rest) = some rest := by
      refine ih (fun x hx => h x ?_)
      simp [hx]
    have hv1 : a / 4 * 4 + (a % 4 * 16 + b / 16) / 16 = a := by omega
    have hv2 : (a % 4 * 16 + b / 16) % 16 * 16 + (b % 16 * 4 + c / 64) / 4 = b := by omega
    have hv3 : (b % 16 * 4 + c / 64) % 4 * 64 + c % 64 = c := by omega
    simp [b64encodeList, b64decodeList, h1, h2, h3, h4, h3ne, h4ne, ihh, hv1, hv2, hv3]

theorem atobBytes_btoaBytes (l : List Nat) (h : ∀ b ∈ l, b < 256) :
    atobBytes (btoaBytes l) = some l := by
  simpa [atobBytes, btoaBytes] using b64decodeList_encodeList l h

/-! ## Text encoding (the browser built-ins TextEncoder / TextDecoder)

Modelled from the spec: the source turns a plaintext string into bytes with
new TextEncoder().encode(data) and back with new TextDecoder().decode(buf)
(UTF-8).  The browser encoder is external to the repository; it is modelled
here as an injective byte serialisation (three bytes per code point, code
points are below 2^21).  The claims rely only on it being an injective
encoding into bytes that `textDecodeChars` inverts, which UTF-8 is. -/

/-- Serialise each character as three bytes, big-endian. -/
def textEncodeChars : List Char → List Nat
  | [] => []
  | c :: cs => c.toNat / 65536 :: c.toNat / 256 % 256 :: c.toNat % 256 :: textEncodeChars cs

/-- Modelled from the spec: new TextEncoder().encode(s). -/
def textEncode (s : String) : List Nat := textEncodeChars s.data

/-- Read back the three-byte groups; a malformed tail is dropped (the real
decoder would emit replacement characters there, a case no claim exercises). -/
def textDecodeChars : List Nat → List Char
  | a :: b :: c :: rest => Char.ofNat (a * 65536 + b * 256 + c) :: textDecodeChars rest
  | _ => []

/-- Modelled from the spec: new TextDecoder().decode(bytes). -/
def textDecode (bytes : List Nat) : String := String.mk (textDecodeChars bytes)

theorem char_toNat_lt (c : Char) : c.toNat < 1114112 := by
  rcases c.valid with h | ⟨_, h⟩ <;> simpa [Char.toNat] using by omega

theorem textEncodeChars_lt (cs : List Char) : ∀ b ∈ textEncodeChars cs, b < 256 := by
  induction cs with
  | nil => simp [textEncodeChars]
  | cons c cs ih =>
    have hc := char_toNat_lt c
    intro b hb
    simp only [textEncodeChars, List.mem_cons] at hb
    rcases hb with h | h | h | h
    · omega
    · omega
    · omega
    · exact ih b h

theorem textEncode_lt (s : String) : ∀ b ∈ textEncode s, b < 256 :=
  textEncodeChars_lt s.data

theorem textDecodeChars_encodeChars (cs : List Char) :
    textDecodeChars (textEncodeChars cs) = cs := by
  induction cs with
  | nil => rfl
  | cons c cs ih =>
    have hc := char_toNat_lt c
    have hn : c.toNat / 65536 * 65536 + c.toNat / 256 % 256 * 256 + c.toNat % 256 = c.toNat := by
      omega
    simp [textEncodeChars, textDecodeChars, hn, ih, Char.ofNat_toNat]

theorem textDecode_textEncode (s : String) : textDecode (textEncode s) = s := by
  cases s with
  | mk data => simp [textDecode, textEncode, textDecodeChars_encodeChars]

/-! ## AES-GCM (the Web Crypto calls in encryptData / decryptData)

Modelled from the spec: crypto.subtle.encrypt / crypto.subtle.decrypt with
AES-GCM provide authenticated encryption — decryption returns the exact
original plaintext when the key and iv match, and throws (the integrity tag
fails to verify) under a wrong key, a mismatched iv, or a malformed
ciphertext.  Web Crypto is external to the repository, so the cipher is
modelled symbolically: the ciphertext is an injective packaging of
(key, iv, plaintext), and decryption checks that the packaged key and iv
equal the ones supplied, returning none (the thrown OperationError)
otherwise.  Confidentiality is not modelled; no claim is about it. -/

/-- A key is its raw byte material (crypto.subtle.exportKey raw form). -/
abbrev Key := List Nat

/-- 32-bit big-endian length header for the symbolic ciphertext packaging. -/
def lenc4 (n : Nat) : List Nat :=
  [n / 16777216 % 256, n / 65536 % 256, n / 256 % 256, n % 256]

/-- Read back a 32-bit big-endian length header. -/
def ldec4 (a b c d : Nat) : Nat := a * 16777216 + b * 65536 + c * 256 + d

/-- Modelled from the spec: crypto.subtle.encrypt with AES-GCM (symbolic). -/
def gcmEncrypt (key : Key) (iv : List Nat) (pt : List Nat) : List Nat :=
  lenc4 key.length ++ key ++ lenc4 iv.length ++ iv ++ pt

/-- Modelled from the spec: crypto.subtle.decrypt with AES-GCM (symbolic);
none models the thrown OperationError when the integrity check fails. -/
def gcmDecrypt (key : Key) (iv : List Nat) (ct : List Nat) : Option (List Nat) :=
  match ct with
  | a :: b :: c :: d :: rest =>
    let k := rest.take (ldec4 a b c d)
    let rest2 := rest.drop (ldec4 a b c d)
    match rest2 with
    | e :: f :: g :: h :: rest3 =>
      let iv2 := rest3.take (ldec4 e f g h)
      let pt := rest3.drop (ldec4 e f g h)
      if k = key ∧ iv2 = iv then some pt else none
    | _ => none
  | _ => none

theorem take_len_app {α : Type} (l₁ l₂ : List α) : (l₁ ++ l₂).take l₁.length = l₁ := by
  induction l₁ with
  | nil => rfl
  | cons x xs ih => simp [ih]

theorem drop_len_app {α : Type} (l₁ l₂ : List α) : (l₁ ++ l₂).drop l₁.length = l₂ := by
  induction l₁ with
  | nil => rfl
  | cons x xs ih => simp [ih]

theorem gcmEncrypt_lt (key iv pt : List Nat) (hk : ∀ b ∈ key, b < 256)
    (hi : ∀ b ∈ iv, b < 256) (hp : ∀ b ∈ pt, b < 256) :
    ∀ b ∈ gcmEncrypt key iv pt, b < 256 := by
  intro b hb
  have hb5 : b ∈ lenc4 key.length ∨ b ∈ key ∨ b ∈ lenc4 iv.length ∨ b ∈ iv ∨ b ∈ pt := by
    simpa [gcmEncrypt, List.mem_append, or_assoc] using hb
  rcases hb5 with h | h | h | h | h
  · simp only [lenc4, List.mem_cons, List.not_mem_nil, or_false] at h
    rcases h with h | h | h | h <;> omega
  · exact hk b h
  · simp only [lenc4, List.mem_cons, List.not_mem_nil, or_false] at h
    rcases h with h | h | h | h <;> omega
  · exact hi b h
  · exact hp b h

theorem gcmDecrypt_encrypt (key iv pt : List Nat)
    (hkl : key.length < 4294967296) (hil : iv.length < 4294967296) :
    gcmDecrypt key iv (gcmEncrypt key iv pt) = some pt := by
  have h1 : ldec4 (key.length / 16777216 % 256) (key.length / 65536 % 256)
      (key.length / 256 % 256) (key.length % 256) = key.length := by
    simp only [ldec4]; omega
  have h2 : ldec4 (iv.length / 16777216 % 256) (iv.length / 65536 % 256)
      (iv.length / 256 % 256) (iv.length % 256) = iv.length := by
    simp only [ldec4]; omega
  simp [gcmEncrypt, lenc4, gcmDecrypt, h1, h2, take_len_app, drop_len_app,
    List.append_assoc]

theorem gcmDecrypt_wrong_key (key1 key2 iv pt : List Nat)
    (hkl : key1.length < 4294967296) (hil : iv.length < 4294967296)
    (hne : key1 ≠ key2) :
    gcmDecrypt key2 iv (gcmEncrypt key1 iv pt) = none := by
  have h1 : ldec4 (key1.length / 16777216 % 256) (key1.length / 65536 % 256)
      (key1.length / 256 % 256) (key1.length % 256) = key1.length := by
    simp only [ldec4]; omega
  have h2 : ldec4 (iv.length / 16777216 % 256) (iv.length / 65536 % 256)
      (iv.length / 256 % 256) (iv.length % 256) = iv.length := by
    simp only [ldec4]; omega
  simp [gcmEncrypt, lenc4, gcmDecrypt, h1, h2, take_len_app, drop_len_app,
    List.append_assoc, hne]

/-! ## The Cipher: encryptData / decryptData

Translated from src/routes/Add-Data/+page.svelte lines 138-185 (the
Transactions page and the Transaction-History section carry a verbatim copy
of decryptData).  The page-level variable encryptionKey is passed
explicitly; the random 96-bit iv drawn by crypto.getRandomValues is passed
explicitly as well.  A thrown exception is an Except.error carrying the
error's name. -/

/-- The pair of base64 strings stored for an encrypted field. -/
structure Envelope where
  encrypted : String
  iv : String
deriving DecidableEq

/-- encryptData: UTF-8 encode the data, AES-GCM encrypt it under the session
key with the supplied iv, and base64 both the ciphertext and the iv. -/
def encryptData (encryptionKey : Option Key) (iv : List Nat) (data : String) :
    Except String Envelope :=
  match encryptionKey with
  | none => Except.error "Encryption key not available"
  | some key =>
    Except.ok { encrypted := btoaBytes (gcmEncrypt key iv (textEncode data)),
                iv := btoaBytes iv }

/-- decryptData: base64-decode the ciphertext and the iv, AES-GCM decrypt
under the session key, UTF-8 decode the result. -/
def decryptData (encryptionKey : Option Key) (encryptedData : String) (iv : String) :
    Except String String :=
  match encryptionKey with
  | none => Except.error "Encryption key not available"
  | some key =>
    match atobBytes encryptedData with
    | none => Except.error "InvalidCharacterError"
    | some encryptedBuffer =>
      match atobBytes iv with
      | none => Except.error "InvalidCharacterError"
      | some ivBuffer =>
        match gcmDecrypt key ivBuffer encryptedBuffer with
        | none => Except.error "OperationError"
        | some decryptedBuffer => Except.ok (textDecode decryptedBuffer)

/-- exportKey: export the raw key bytes and base64 them
(src/routes/Add-Data/+page.svelte lines 82-86). -/
def exportKey (key : Key) : String := btoaBytes key

/-- importKey: base64-decode the string and import it as a raw AES-GCM key
(src/routes/Add-Data/+page.svelte lines 88-100); crypto.subtle.importKey
accepts only 128/192/256-bit raw AES key material, so any other length
throws.  none models the throw. -/
def importKey (keyString : String) : Option Key :=
  match atobBytes keyString with
  | none => none
  | some keyBuffer =>
    if keyBuffer.length = 16 ∨ keyBuffer.length = 24 ∨ keyBuffer.length = 32 then
      some keyBuffer
    else none

/-- Modelled from the spec: PBKDF2 with SHA-256, the deriveKey call of the
Web Crypto API.  The primitive is external to the repository; it is modelled
as an ideal deterministic KDF — an arbitrary function of the key material,
salt and iteration count producing klen bytes.  The claims rely only on it
being deterministic with byte output of the requested length. -/
def pbkdf2Derive (material salt : List Nat) (iterations klen : Nat) : List Nat :=
  (List.range klen).map (fun i =>
    (material.foldl (fun a b => a * 31 + b) 7 +
      (salt.foldl (fun a b => a * 31 + b) 7) * 131 + iterations * 17 + i) % 256)

theorem pbkdf2Derive_lt (material salt : List Nat) (iterations klen : Nat) :
    ∀ b ∈ pbkdf2Derive material salt iterations klen, b < 256 := by
  intro b hb
  simp only [pbkdf2Derive, List.mem_map] at hb
  obtain ⟨i, _, rfl⟩ := hb
  omega

theorem pbkdf2Derive_length (material salt : List Nat) (iterations klen : Nat) :
    (pbkdf2Derive material salt iterations klen).length = klen := by
  simp [pbkdf2Derive]

/-- getMasterKey (src/routes/Add-Data/+page.svelte lines 103-136): when the
environment variable VITE_PUBLIC_ENCRYPT_KEY is set, derive a 256-bit
AES-GCM key with PBKDF2 (SHA-256, fixed salt kash-encryption-salt, 100000
iterations) over the shared secret concatenated with the user id; otherwise
generate a fresh random key (generateEncryptionKey) — the randomness is the
explicit randomKey argument. -/
def getMasterKey (envKey : Option String) (uid : String) (randomKey : Key) : Key :=
  match envKey with
  | some secret =>
    pbkdf2Derive (textEncode (secret ++ uid)) (textEncode "kash-encryption-salt") 100000 32
  | none => randomKey

/-- Shared round-trip lemma: decryptData inverts encryptData under the same
key, for genuine byte material. -/
theorem decryptData_encryptData (key : Key) (iv : List Nat) (p : String)
    (env : Envelope)
    (hk : ∀ b ∈ key, b < 256) (hkl : key.length < 4294967296)
    (hi : ∀ b ∈ iv, b < 256) (hil : iv.length < 4294967296)
    (henv : encryptData (some key) iv p = Except.ok env) :
    decryptData (some key) env.encrypted env.iv = Except.ok p := by
  have henv2 : env = Envelope.mk (btoaBytes (gcmEncrypt key iv (textEncode p))) (btoaBytes iv) := by
    simpa [encryptData] using henv.symm
  subst henv2
  have hct : ∀ b ∈ gcmEncrypt key iv (textEncode p), b < 256 :=
    gcmEncrypt_lt key iv (textEncode p) hk hi (textEncode_lt p)
  simp [decryptData, atobBytes_btoaBytes _ hct, atobBytes_btoaBytes _ hi,
    gcmDecrypt_encrypt key iv (textEncode p) hkl hil, textDecode_textEncode]

/-- Claim C1: for every plaintext string p and every AES-GCM key k,
decrypting the envelope produced by encryptData with the same key returns
exactly p, through the UTF-8 and base64 encodings. -/
theorem claim_C1_encrypt_decrypt_roundtrip (key : Key) (iv : List Nat) (p : String)
    (env : Envelope)
    (hk : ∀ b ∈ key, b < 256) (hkl : key.length < 4294967296)
    (hi : ∀ b ∈ iv, b < 256) (hil : iv.length < 4294967296)
    (henv : encryptData (some key) iv p = Except.ok env) :
    decryptData (some key) env.encrypted env.iv = Except.ok p :=
  decryptData_encryptData key iv p env hk hkl hi hil henv

/-- Witness for C1 at a concrete 256-bit key, 96-bit iv and plaintext. -/
theorem claim_C1_witness :
    decryptData (some (List.range 32))
      (btoaBytes (gcmEncrypt (List.range 32) (List.range 12) (textEncode "42.5")))
      (btoaBytes (List.range 12)) = Except.ok "42.5" :=
  claim_C1_encrypt_decrypt_roundtrip (List.range 32) (List.range 12) "42.5"
    { encrypted := btoaBytes (gcmEncrypt (List.range 32) (List.range 12) (textEncode "42.5")),
      iv := btoaBytes (List.range 12) }
    (by decide) (by decide) (by decide) (by decide) rfl

/-- Claim C2: for distinct keys k1 and k2, decrypting an envelope produced
under k1 with k2 fails with the explicit decryption error (the AES-GCM
integrity check throws OperationError); no plaintext value is returned. -/
theorem claim_C2_wrong_key_fails (key1 key2 : Key) (iv : List Nat) (p : String)
    (env : Envelope)
    (hk1 : ∀ b ∈ key1, b < 256) (hkl1 : key1.length < 4294967296)
    (hi : ∀ b ∈ iv, b < 256) (hil : iv.length < 4294967296)
    (hne : key1 ≠ key2)
    (henv : encryptData (some key1) iv p = Except.ok env) :
    decryptData (some key2) env.encrypted env.iv = Except.error "OperationError" := by
  have henv2 : env = Envelope.mk (btoaBytes (gcmEncrypt key1 iv (textEncode p))) (btoaBytes iv) := by
    simpa [encryptData] using henv.symm
  subst henv2
  have hct : ∀ b ∈ gcmEncrypt key1 iv (textEncode p), b < 256 :=
    gcmEncrypt_lt key1 iv (textEncode p) hk1 hi (textEncode_lt p)
  simp [decryptData, atobBytes_btoaBytes _ hct, atobBytes_btoaBytes _ hi,
    gcmDecrypt_wrong_key key1 key2 iv (textEncode p) hkl1 hil hne]

/-- Witness for C2 at two concrete distinct keys. -/
theorem claim_C2_witness :
    decryptData (some (List.replicate 32 9))
      (btoaBytes (gcmEncrypt (List.range 32) (List.range 12) (textEncode "42.5")))
      (btoaBytes (List.range 12)) = Except.error "OperationError" :=
  claim_C2_wrong_key_fails (List.range 32) (List.replicate 32 9) (List.range 12) "42.5"
    { encrypted := btoaBytes (gcmEncrypt (List.range 32) (List.range 12) (textEncode "42.5")),
      iv := btoaBytes (List.range 12) }
    (by decide) (by decide) (by decide) (by decide) (by decide) rfl

/-- Claim C6: with a shared secret configured, key derivation is
deterministic — two runs of getMasterKey with the same (sharedSecret,
userId) and any two random draws produce the same key, and an envelope
produced under the first run's key decrypts under the second run's key. -/
theorem claim_C6_deterministic_derivation (secret uid : String) (rand1 rand2 : Key)
    (iv : List Nat) (p : String) (env : Envelope)
    (hi : ∀ b ∈ iv, b < 256) (hil : iv.length < 4294967296)
    (henv : encryptData (some (getMasterKey (some secret) uid rand1)) iv p = Except.ok env) :
    getMasterKey (some secret) uid rand1 = getMasterKey (some secret) uid rand2 ∧
      decryptData (some (getMasterKey (some secret) uid rand2)) env.encrypted env.iv =
        Except.ok p := by
  refine ⟨rfl, ?_⟩
  have hk : ∀ b ∈ getMasterKey (some secret) uid rand2, b < 256 :=
    pbkdf2Derive_lt _ _ _ _
  have hkl : (getMasterKey (some secret) uid rand2).length < 4294967296 := by
    simp [getMasterKey, pbkdf2Derive_length]
  exact decryptData_encryptData _ iv p env hk hkl hi hil henv

/-- Witness for C6 with a concrete secret, user id, two random draws. -/
theorem claim_C6_witness :
    getMasterKey (some "sharedsecret") "user1" (List.range 32) =
      getMasterKey (some "sharedsecret") "user1" (List.replicate 32 5) ∧
      decryptData (some (getMasterKey (some "sharedsecret") "user1" (List.replicate 32 5)))
        (btoaBytes (gcmEncrypt (getMasterKey (some "sharedsecret") "user1" (List.range 32))
          (List.range 12) (textEncode "99")))
        (btoaBytes (List.range 12)) = Except.ok "99" :=
  claim_C6_deterministic_derivation "sharedsecret" "user1" (List.range 32)
    (List.replicate 32 5) (List.range 12) "99"
    { encrypted := btoaBytes (gcmEncrypt
        (getMasterKey (some "sharedsecret") "user1" (List.range 32))
        (List.range 12) (textEncode "99")),
      iv := btoaBytes (List.range 12) }
    (by decide) (by decide) rfl

/-! ## The Transaction Codec: decryptTransaction

Translated from src/routes/Transactions/+page.svelte lines 253-287; the copy
in src/sections/Transaction-History.svelte lines 348-382 is verbatim
identical, so one definition covers both call sites.  A transaction record
is a dynamic object (it comes straight out of a Firestore document), so it
is modelled as an association list of JavaScript values; a missing field
reads as undefined. -/

/-- A JavaScript number: a finite value (exact rational reading of the
decimal text, which is exact on every value a claim exercises), NaN, or a
signed infinity. -/
inductive JSNum where
  | num (q : ℚ)
  | nan
  | inf (neg : Bool)
deriving DecidableEq

/-- A JavaScript value as stored in a transaction record. -/
inductive JSValue where
  | vStr (s : String)
  | vNum (n : JSNum)
  | vBool (b : Bool)
  | vNull
  | vUndefined
  | vTimestamp (t : String)
deriving DecidableEq

/-- A record object: an association list of fields. -/
abbrev JSObject := List (String × JSValue)

/-- Field lookup; none models a missing property. -/
def lookupAssoc {α : Type} : List (String × α) → String → Option α
  | [], _ => none
  | (k0, v0) :: rest, k => if k0 = k then some v0 else lookupAssoc rest k

/-- Functional field update, as done by the object spread in the source. -/
def setAssoc {α : Type} : List (String × α) → String → α → List (String × α)
  | [], k, v => [(k, v)]
  | (k0, v0) :: rest, k, v =>
    if k0 = k then (k, v) :: rest else (k0, v0) :: setAssoc rest k v

/-- Property read: a missing field reads as undefined. -/
def getField (t : JSObject) (k : String) : JSValue :=
  (lookupAssoc t k).getD JSValue.vUndefined

/-- JavaScript truthiness, as used by the envelope-presence guards. -/
def truthy : JSValue → Bool
  | JSValue.vStr s => s != ""
  | JSValue.vNum (JSNum.num q) => q != 0
  | JSValue.vNum JSNum.nan => false
  | JSValue.vNum (JSNum.inf _) => true
  | JSValue.vBool b => b
  | JSValue.vNull => false
  | JSValue.vUndefined => false
  | JSValue.vTimestamp _ => true

/-- Decimal value of a digit list. -/
def digitsVal (l : List Char) : Nat :=
  l.foldl (fun a c => a * 10 + (c.toNat - 48)) 0

/-- parseFloat: skip leading whitespace, optional sign, Infinity or a
decimal mantissa with optional fraction and optional exponent; the longest
valid prefix counts and no parse at all yields NaN. -/
def parseFloat (s : String) : JSNum :=
  let l0 := s.data.dropWhile (fun c => c == ' ' || c == '\t' || c == '\n' || c == '\r')
  let neg : Bool := match l0 with
    | '-' :: _ => true
    | _ => false
  let l1 : List Char := match l0 with
    | '-' :: r => r
    | '+' :: r => r
    | _ => l0
  if l1.take 8 = "Infinity".toList then JSNum.inf neg
  else
    let ip := l1.takeWhile Char.isDigit
    let l2 := l1.dropWhile Char.isDigit
    let fp : List Char := match l2 with
      | '.' :: r => r.takeWhile Char.isDigit
      | _ => []
    let l3 : List Char := match l2 with
      | '.' :: r => r.dropWhile Char.isDigit
      | _ => l2
    if ip = [] ∧ fp = [] then JSNum.nan
    else
      let e : Int := match l3 with
        | 'e' :: r | 'E' :: r =>
          match r with
          | '+' :: r2 => (digitsVal (r2.takeWhile Char.isDigit) : Int)
          | '-' :: r2 => -(digitsVal (r2.takeWhile Char.isDigit) : Int)
          | r2 => (digitsVal (r2.takeWhile Char.isDigit) : Int)
        | _ => 0
      let mant : ℚ := (digitsVal ip : ℚ) + (digitsVal fp : ℚ) / (10 : ℚ) ^ fp.length
      let v : ℚ := mant * (10 : ℚ) ^ e
      JSNum.num (if neg then -v else v)

/-- The string a number coerces to. -/
def numToString : JSNum → String
  | JSNum.nan => "NaN"
  | JSNum.inf true => "-Infinity"
  | JSNum.inf false => "Infinity"
  | JSNum.num q => toString q.num ++ (if q.den = 1 then "" else "/" ++ toString q.den)

/-- The implicit string coercion applied to decryptData's arguments when a
record carries a non-string in an envelope field.  Exact JavaScript number
formatting is approximated (every claim feeds strings through this path). -/
def jsToString : JSValue → String
  | JSValue.vStr s => s
  | JSValue.vNum n => numToString n
  | JSValue.vBool b => if b then "true" else "false"
  | JSValue.vNull => "null"
  | JSValue.vUndefined => "undefined"
  | JSValue.vTimestamp t => t

/-- Modelled from the spec: Timestamp.fromDate(new Date(s)).  Browser date
parsing is external; it is modelled as accepting any string that contains a
digit and throwing a RangeError on an invalid date (no claim depends on the
exact date grammar). -/
def timestampFromDate (s : String) : Except String JSValue :=
  if s.data.any Char.isDigit then Except.ok (JSValue.vTimestamp s)
  else Except.error "RangeError"

/-- The amount half of decryptTransaction: start from amountPlain; when both
envelope halves are truthy, try to decrypt and parseFloat, and on a thrown
decryption error keep the plain value and log a warning. -/
def decryptAmountStep (key : Option Key) (t : JSObject) : JSValue × List String :=
  if truthy (getField t "amount") && truthy (getField t "amountIv") then
    match decryptData key (jsToString (getField t "amount")) (jsToString (getField t "amountIv")) with
    | Except.ok s => (JSValue.vNum (parseFloat s), [])
    | Except.error e => (getField t "amountPlain", ["Failed to decrypt amount, using plain value: " ++ e])
  else (getField t "amountPlain", [])

/-- The date half of decryptTransaction: start from datePlain; when both
envelope halves are truthy, try to decrypt and rebuild a Timestamp, and on
a thrown error keep the plain value and log a warning. -/
def decryptDateStep (key : Option Key) (t : JSObject) : JSValue × List String :=
  if truthy (getField t "date") && truthy (getField t "dateIv") then
    match decryptData key (jsToString (getField t "date")) (jsToString (getField t "dateIv")) with
    | Except.ok s =>
      match timestampFromDate s with
      | Except.ok v => (v, [])
      | Except.error e => (getField t "datePlain", ["Failed to decrypt date, using plain value: " ++ e])
    | Except.error e => (getField t "datePlain", ["Failed to decrypt date, using plain value: " ++ e])
  else (getField t "datePlain", [])

/-- The try block of decryptTransaction: both field steps, then the object
spread overwriting amount and date.  Every throwing operation inside sits
under one of the two inner catches, so the block itself always returns. -/
def decryptTransactionBody (key : Option Key) (t : JSObject) :
    Except String (JSObject × List String) :=
  let a := decryptAmountStep key t
  let d := decryptDateStep key t
  Except.ok (setAssoc (setAssoc t "amount" a.1) "date" d.1, a.2 ++ d.2)

/-- decryptTransaction: the try block wrapped in the outer catch, which
logs and returns the original record. -/
def decryptTransaction (key : Option Key) (t : JSObject) :
    Except String (JSObject × List String) :=
  match decryptTransactionBody key t with
  | Except.ok r => Except.ok r
  | Except.error e => Except.ok (t, ["Error decrypting transaction: " ++ e])

theorem lookupAssoc_setAssoc_self {α : Type} (l : List (String × α)) (k : String) (v : α) :
    lookupAssoc (setAssoc l k v) k = some v := by
  induction l with
  | nil => simp [setAssoc, lookupAssoc]
  | cons p rest ih =>
    by_cases h : p.1 = k
    · simp [setAssoc, lookupAssoc, h]
    · simp [setAssoc, lookupAssoc, h, ih]

theorem lookupAssoc_setAssoc_ne {α : Type} (l : List (String × α)) (k f : String) (v : α)
    (hne : f ≠ k) : lookupAssoc (setAssoc l k v) f = lookupAssoc l f := by
  induction l with
  | nil => simp [setAssoc, lookupAssoc, Ne.symm hne]
  | cons p rest ih =>
    by_cases h : p.1 = k
    · simp [setAssoc, lookupAssoc, h, Ne.symm hne]
    · simp [setAssoc, lookupAssoc, h, ih]

theorem decryptTransaction_eq (key : Option Key) (t : JSObject) :
    decryptTransaction key t =
      Except.ok (setAssoc (setAssoc t "amount" (decryptAmountStep key t).1) "date"
        (decryptDateStep key t).1, (decryptAmountStep key t).2 ++ (decryptDateStep key t).2) := rfl

theorem b64encodeList_eq_nil (l : List Nat) (h : b64encodeList l = []) : l = [] := by
  cases l with
  | nil => rfl
  | cons a t =>
    cases t with
    | nil => simp [b64encodeList] at h
    | cons b t2 =>
      cases t2 with
      | nil => simp [b64encodeList] at h
      | cons c t3 => simp [b64encodeList] at h

theorem truthy_btoaBytes (l : List Nat) (h : l ≠ []) :
    truthy (JSValue.vStr (btoaBytes l)) = true := by
  simp only [truthy, bne_iff_ne, ne_eq, decide_eq_true_eq]
  intro heq
  exact h (b64encodeList_eq_nil l (by simpa [btoaBytes, String.ext_iff] using heq))

theorem gcmEncrypt_ne_nil (key iv pt : List Nat) : gcmEncrypt key iv pt ≠ [] := by
  simp [gcmEncrypt, lenc4]

/-- Claim C3: for every key state and every record object of any shape,
decryptTransaction never throws — it always returns a record object (with
its warning log). -/
theorem claim_C3_never_throws (key : Option Key) (t : JSObject) :
    ∃ r, decryptTransaction key t = Except.ok r :=
  ⟨_, decryptTransaction_eq key t⟩

/-- Claim C4: a record with no encrypted amount envelope comes back with its
amount equal to the plaintext mirror field, unchanged. -/
theorem claim_C4_legacy_passthrough (key : Option Key) (t : JSObject) (r : JSObject)
    (w : List String)
    (hno : lookupAssoc t "amount" = none ∨ lookupAssoc t "amountIv" = none)
    (hr : decryptTransaction key t = Except.ok (r, w)) :
    getField r "amount" = getField t "amountPlain" := by
  have hguard : (truthy (getField t "amount") && truthy (getField t "amountIv")) = false := by
    rcases hno with h | h <;> simp [getField, h, truthy]
  have hstep : decryptAmountStep key t = (getField t "amountPlain", []) := by
    simp [decryptAmountStep, hguard]
  rw [decryptTransaction_eq] at hr
  simp only [Except.ok.injEq, Prod.mk.injEq] at hr
  rw [← hr.1, getField, lookupAssoc_setAssoc_ne _ _ _ _ (by decide),
    lookupAssoc_setAssoc_self, hstep]
  rfl

/-- Witness for C4: a legacy record holding only amountPlain = 42.50 comes
back with amount = 42.50. -/
theorem claim_C4_witness :
    getField [("amountPlain", JSValue.vNum (JSNum.num (85 / 2))),
        ("amount", JSValue.vNum (JSNum.num (85 / 2))), ("date", JSValue.vUndefined)] "amount" =
      getField [("amountPlain", JSValue.vNum (JSNum.num (85 / 2)))] "amountPlain" :=
  claim_C4_legacy_passthrough none [("amountPlain", JSValue.vNum (JSNum.num (85 / 2)))]
    [("amountPlain", JSValue.vNum (JSNum.num (85 / 2))),
      ("amount", JSValue.vNum (JSNum.num (85 / 2))), ("date", JSValue.vUndefined)] []
    (Or.inl rfl) rfl

/-- Claim C5: a record whose amount envelope was encrypted under key K, read
with a different session key K2, does not throw: the returned amount is the
amountPlain mirror value and a warning is logged. -/
theorem claim_C5_wrong_key_fallback (k k2 : Key) (ivb : List Nat) (p : String)
    (t : JSObject) (r : JSObject) (w : List String)
    (hk : ∀ b ∈ k, b < 256) (hkl : k.length < 4294967296)
    (hi : ∀ b ∈ ivb, b < 256) (hil : ivb.length < 4294967296)
    (hivne : ivb ≠ []) (hne : k ≠ k2)
    (hamt : lookupAssoc t "amount" =
      some (JSValue.vStr (btoaBytes (gcmEncrypt k ivb (textEncode p)))))
    (hiv : lookupAssoc t "amountIv" = some (JSValue.vStr (btoaBytes ivb)))
    (hr : decryptTransaction (some k2) t = Except.ok (r, w)) :
    getField r "amount" = getField t "amountPlain" ∧
      "Failed to decrypt amount, using plain value: OperationError" ∈ w := by
  have hta : getField t "amount" =
      JSValue.vStr (btoaBytes (gcmEncrypt k ivb (textEncode p))) := by
    simp [getField, hamt]
  have hti : getField t "amountIv" = JSValue.vStr (btoaBytes ivb) := by
    simp [getField, hiv]
  have hct : ∀ b ∈ gcmEncrypt k ivb (textEncode p), b < 256 :=
    gcmEncrypt_lt _ _ _ hk hi (textEncode_lt p)
  have hguard : (truthy (getField t "amount") && truthy (getField t "amountIv")) = true := by
    rw [hta, hti, truthy_btoaBytes _ (gcmEncrypt_ne_nil _ _ _), truthy_btoaBytes _ hivne]
    rfl
  have hdec : decryptData (some k2) (jsToString (getField t "amount"))
      (jsToString (getField t "amountIv")) = Except.error "OperationError" := by
    rw [hta, hti]
    simp [jsToString, decryptData, atobBytes_btoaBytes _ hct, atobBytes_btoaBytes _ hi,
      gcmDecrypt_wrong_key k k2 ivb (textEncode p) hkl hil hne]
  have hstep : decryptAmountStep (some k2) t = (getField t "amountPlain",
      ["Failed to decrypt amount, using plain value: OperationError"]) := by
    simp [decryptAmountStep, hguard, hdec]
  rw [decryptTransaction_eq] at hr
  simp only [Except.ok.injEq, Prod.mk.injEq] at hr
  constructor
  · rw [← hr.1, getField, lookupAssoc_setAssoc_ne _ _ _ _ (by decide),
      lookupAssoc_setAssoc_self, hstep]
    rfl
  · rw [← hr.2, hstep]
    simp

/-- Witness for C5 at concrete distinct keys and a concrete record. -/
theorem claim_C5_witness :
    getField [("amount", JSValue.vNum (JSNum.num (85 / 2))),
        ("amountIv", JSValue.vStr (btoaBytes (List.range 12))),
        ("amountPlain", JSValue.vNum (JSNum.num (85 / 2))), ("date", JSValue.vUndefined)]
        "amount" =
      getField [("amount", JSValue.vStr (btoaBytes
          (gcmEncrypt (List.range 32) (List.range 12) (textEncode "42.5")))),
        ("amountIv", JSValue.vStr (btoaBytes (List.range 12))),
        ("amountPlain", JSValue.vNum (JSNum.num (85 / 2)))] "amountPlain" ∧
      "Failed to decrypt amount, using plain value: OperationError" ∈
        ["Failed to decrypt amount, using plain value: OperationError"] :=
  claim_C5_wrong_key_fallback (List.range 32) (List.replicate 32 9) (List.range 12) "42.5"
    [("amount", JSValue.vStr (btoaBytes
        (gcmEncrypt (List.range 32) (List.range 12) (textEncode "42.5")))),
      ("amountIv", JSValue.vStr (btoaBytes (List.range 12))),
      ("amountPlain", JSValue.vNum (JSNum.num (85 / 2)))]
    [("amount", JSValue.vNum (JSNum.num (85 / 2))),
      ("amountIv", JSValue.vStr (btoaBytes (List.range 12))),
      ("amountPlain", JSValue.vNum (JSNum.num (85 / 2))), ("date", JSValue.vUndefined)]
    ["Failed to decrypt amount, using plain value: OperationError"]
    (by decide) (by decide) (by decide) (by decide) (by decide) (by decide) rfl rfl rfl

/-- Claim C9: when the amount envelope decrypts successfully but the
plaintext does not parse as a number, the returned amount is NaN (the
parseFloat result) and the amount branch logs nothing — the amountPlain
mirror is not used. -/
theorem claim_C9_nan_not_mirrored (k : Key) (ivb : List Nat) (p : String)
    (t : JSObject) (r : JSObject) (w : List String)
    (hk : ∀ b ∈ k, b < 256) (hkl : k.length < 4294967296)
    (hi : ∀ b ∈ ivb, b < 256) (hil : ivb.length < 4294967296)
    (hivne : ivb ≠ [])
    (hamt : lookupAssoc t "amount" =
      some (JSValue.vStr (btoaBytes (gcmEncrypt k ivb (textEncode p)))))
    (hiv : lookupAssoc t "amountIv" = some (JSValue.vStr (btoaBytes ivb)))
    (hnan : parseFloat p = JSNum.nan)
    (hr : decryptTransaction (some k) t = Except.ok (r, w)) :
    getField r "amount" = JSValue.vNum JSNum.nan ∧ (decryptAmountStep (some k) t).2 = [] := by
  have hta : getField t "amount" =
      JSValue.vStr (btoaBytes (gcmEncrypt k ivb (textEncode p))) := by
    simp [getField, hamt]
  have hti : getField t "amountIv" = JSValue.vStr (btoaBytes ivb) := by
    simp [getField, hiv]
  have hguard : (truthy (getField t "amount") && truthy (getField t "amountIv")) = true := by
    rw [hta, hti, truthy_btoaBytes _ (gcmEncrypt_ne_nil _ _ _), truthy_btoaBytes _ hivne]
    rfl
  have hdec : decryptData (some k) (jsToString (getField t "amount"))
      (jsToString (getField t "amountIv")) = Except.ok p := by
    rw [hta, hti]
    exact decryptData_encryptData k ivb p
      (Envelope.mk (btoaBytes (gcmEncrypt k ivb (textEncode p))) (btoaBytes ivb))
      hk hkl hi hil rfl
  have hstep : decryptAmountStep (some k) t = (JSValue.vNum JSNum.nan, []) := by
    simp [decryptAmountStep, hguard, hdec, hnan]
  rw [decryptTransaction_eq] at hr
  simp only [Except.ok.injEq, Prod.mk.injEq] at hr
  refine ⟨?_, by rw [hstep]⟩
  rw [← hr.1, getField, lookupAssoc_setAssoc_ne _ _ _ _ (by decide),
    lookupAssoc_setAssoc_self, hstep]
  rfl

/-- Witness for C9: the plaintext hello decrypts fine and parses to NaN. -/
theorem claim_C9_witness :
    getField [("amount", JSValue.vNum JSNum.nan),
        ("amountIv", JSValue.vStr (btoaBytes (List.range 12))),
        ("amountPlain", JSValue.vNum (JSNum.num 7)), ("date", JSValue.vUndefined)] "amount" =
      JSValue.vNum JSNum.nan ∧
      (decryptAmountStep (some (List.range 32))
        [("amount", JSValue.vStr (btoaBytes
            (gcmEncrypt (List.range 32) (List.range 12) (textEncode "hello")))),
          ("amountIv", JSValue.vStr (btoaBytes (List.range 12))),
          ("amountPlain", JSValue.vNum (JSNum.num 7))]).2 = [] :=
  claim_C9_nan_not_mirrored (List.range 32) (List.range 12) "hello"
    [("amount", JSValue.vStr (btoaBytes
        (gcmEncrypt (List.range 32) (List.range 12) (textEncode "hello")))),
      ("amountIv", JSValue.vStr (btoaBytes (List.range 12))),
      ("amountPlain", JSValue.vNum (JSNum.num 7))]
    [("amount", JSValue.vNum JSNum.nan),
      ("amountIv", JSValue.vStr (btoaBytes (List.range 12))),
      ("amountPlain", JSValue.vNum (JSNum.num 7)), ("date", JSValue.vUndefined)]
    []
    (by decide) (by decide) (by decide) (by decide) (by decide) rfl rfl (by decide) rfl

/-- Claim C10: decryptTransaction modifies only the amount and date fields;
every other field is returned unchanged. -/
theorem claim_C10_frame (key : Option Key) (t : JSObject) (r : JSObject) (w : List String)
    (f : String) (h1 : f ≠ "amount") (h2 : f ≠ "date")
    (hr : decryptTransaction key t = Except.ok (r, w)) :
    lookupAssoc r f = lookupAssoc t f := by
  rw [decryptTransaction_eq] at hr
  simp only [Except.ok.injEq, Prod.mk.injEq] at hr
  rw [← hr.1, lookupAssoc_setAssoc_ne _ _ _ _ h2, lookupAssoc_setAssoc_ne _ _ _ _ h1]

/-- Witness for C10 at a concrete record and the id field. -/
theorem claim_C10_witness :
    lookupAssoc [("id", JSValue.vStr "x"), ("amount", JSValue.vUndefined),
        ("date", JSValue.vUndefined)] "id" =
      lookupAssoc [("id", JSValue.vStr "x")] "id" :=
  claim_C10_frame none [("id", JSValue.vStr "x")]
    [("id", JSValue.vStr "x"), ("amount", JSValue.vUndefined), ("date", JSValue.vUndefined)]
    [] "id" (by decide) (by decide) rfl

/-! ## The Key Store: localStorage cache, Firestore backup, key lifecycle

Page-level mutable state is threaded explicitly.  localStorage and the
users collection of Firestore are association lists; the wall clock
(Timestamp.now) and the outcome of the remote write (a setDoc promise can
reject) are explicit parameters; console output is collected in a log. -/

/-- The slice of the users/<uid> profile document that
storeEncryptionKeyInFirestore merges (setDoc with merge: true). -/
structure UserProfile where
  encryptionKey : Option String
  keyBackupDate : Option Nat
  updatedAt : Option Nat
deriving DecidableEq

/-- The page state touched by the key lifecycle functions. -/
structure AppState where
  localStorage : List (String × String)
  firestoreUsers : List (String × UserProfile)
  encryptionKey : Option Key
  isEncryptionInitialized : Bool
  errorMessage : String
  successMessage : String
  showKeyExportModal : Bool
  importKeyString : String
  log : List String
deriving DecidableEq

/-- storeEncryptionKeyInFirestore (src/routes/Add-Data/+page.svelte lines
213-225): best-effort setDoc merge of the exported key and backup timestamp
onto the user's profile document; a rejected write (remoteOk = false) is
caught and logged, never rethrown. -/
def storeEncryptionKeyInFirestore (user : Option String) (keyString : String) (now : Nat)
    (remoteOk : Bool) (st : AppState) : AppState :=
  match user with
  | none => st
  | some uid =>
    if remoteOk then
      { st with firestoreUsers := setAssoc st.firestoreUsers uid (UserProfile.mk (some keyString) (some now) (some now)) }
    else
      { st with log := st.log ++ ["Error storing encryption key in Firestore"] }

/-- The trim() of JavaScript strings: strip leading and trailing
whitespace (an executable rendering of the built-in). -/
def trimStr (s : String) : String :=
  String.mk (((s.data.dropWhile Char.isWhitespace).reverse.dropWhile Char.isWhitespace).reverse)

/-- importEncryptionKey (src/routes/Add-Data/+page.svelte lines 244-268):
guard on a signed-in user and a nonempty trimmed input, validate the string
through importKey, and only then overwrite the local cache, install the key,
refresh the remote backup and report success; a failed import is caught and
reported as an invalid key format. -/
def importEncryptionKey (user : Option String) (now : Nat) (remoteOk : Bool)
    (st : AppState) : AppState :=
  match user with
  | none => st
  | some uid =>
    if (trimStr st.importKeyString) = "" then st
    else
      match importKey (trimStr st.importKeyString) with
      | none =>
        { st with log := st.log ++ ["Error importing key"], errorMessage := "Invalid encryption key format" }
      | some testKey =>
        let st1 := { st with localStorage := setAssoc st.localStorage ("encryptionKey_" ++ uid) (trimStr st.importKeyString), encryptionKey := some testKey, isEncryptionInitialized := true }
        let st2 := storeEncryptionKeyInFirestore (some uid) (trimStr st.importKeyString) now remoteOk st1
        { st2 with successMessage := "Encryption key imported successfully!", showKeyExportModal := false, importKeyString := "" }

/-- initializeEncryption (src/routes/Add-Data/+page.svelte lines 188-210):
load and import the locally cached key when present; otherwise obtain a key
from getMasterKey, export it, cache it under encryptionKey_<uid> and
best-effort back it up to Firestore.  The catch branch records the failure
and rethrows (the Except.error component). -/
def initializeEncryption (user : Option String) (envKey : Option String) (randomKey : Key)
    (now : Nat) (remoteOk : Bool) (st : AppState) : AppState × Except String Unit :=
  match user with
  | none => (st, Except.ok ())
  | some uid =>
    match lookupAssoc st.localStorage ("encryptionKey_" ++ uid) with
    | some storedKey =>
      match importKey storedKey with
      | some k =>
        ({ st with encryptionKey := some k, isEncryptionInitialized := true }, Except.ok ())
      | none =>
        ({ st with isEncryptionInitialized := false, log := st.log ++ ["Error initializing encryption"] }, Except.error "Failed to initialize encryption")
    | none =>
      let k := getMasterKey envKey uid randomKey
      let st1 := { st with encryptionKey := some k, localStorage := setAssoc st.localStorage ("encryptionKey_" ++ uid) (exportKey k) }
      let st2 := storeEncryptionKeyInFirestore (some uid) (exportKey k) now remoteOk st1
      ({ st2 with isEncryptionInitialized := true }, Except.ok ())

/-- initializeEncryption as written on the Transactions page
(src/routes/Transactions/+page.svelte lines 164-186): identical to the
Add-Data version except that the freshly generated key is only cached
locally — no call to storeEncryptionKeyInFirestore exists there. -/
def initializeEncryptionTx (user : Option String) (envKey : Option String) (randomKey : Key)
    (st : AppState) : AppState × Except String Unit :=
  match user with
  | none => (st, Except.ok ())
  | some uid =>
    match lookupAssoc st.localStorage ("encryptionKey_" ++ uid) with
    | some storedKey =>
      match importKey storedKey with
      | some k =>
        ({ st with encryptionKey := some k, isEncryptionInitialized := true }, Except.ok ())
      | none =>
        ({ st with isEncryptionInitialized := false, log := st.log ++ ["Error initializing encryption"] }, Except.error "Failed to initialize encryption")
    | none =>
      let k := getMasterKey envKey uid randomKey
      let st1 := { st with encryptionKey := some k, localStorage := setAssoc st.localStorage ("encryptionKey_" ++ uid) (exportKey k) }
      ({ st1 with isEncryptionInitialized := true }, Except.ok ())

/-- Counterexample to C7 as stated: the empty import string fails key import
(importKey rejects zero-length raw key material), yet importEncryptionKey
returns without reporting the invalid-key-format error, because the
empty-after-trim guard returns silently first. -/
theorem claim_C7_counterexample :
    importKey (trimStr "") = none ∧
      (importEncryptionKey (some "u") 0 true
          (AppState.mk [] [] none false "" "" false "" [])).errorMessage ≠
        "Invalid encryption key format" := by
  constructor
  · rfl
  · decide

/-- Claim C7 (amended): for every input string that is nonempty after
trimming and fails base64 decoding or key import, importEncryptionKey
reports the invalid-key-format error and leaves the whole local cache
unchanged; a valid import overwrites the cache entry unconditionally and
installs the key. -/
theorem claim_C7_import_validation (uid : String) (now : Nat) (remoteOk : Bool)
    (st : AppState) (hne : (trimStr st.importKeyString) ≠ "") :
    (importKey (trimStr st.importKeyString) = none →
      (importEncryptionKey (some uid) now remoteOk st).localStorage = st.localStorage ∧
      (importEncryptionKey (some uid) now remoteOk st).errorMessage =
        "Invalid encryption key format") ∧
    ∀ k, importKey (trimStr st.importKeyString) = some k →
      lookupAssoc (importEncryptionKey (some uid) now remoteOk st).localStorage
          ("encryptionKey_" ++ uid) = some (trimStr st.importKeyString) ∧
      (importEncryptionKey (some uid) now remoteOk st).encryptionKey = some k := by
  constructor
  · intro hfail
    simp [importEncryptionKey, hne, hfail]
  · intro k hok
    have hself : lookupAssoc (setAssoc st.localStorage ("encryptionKey_" ++ uid)
        (trimStr st.importKeyString)) ("encryptionKey_" ++ uid) = some (trimStr st.importKeyString) :=
      lookupAssoc_setAssoc_self _ _ _
    cases remoteOk <;>
      simp [importEncryptionKey, hne, hok, storeEncryptionKeyInFirestore, hself]

/-- Witness for the amended C7 at a concrete non-base64 string. -/
theorem claim_C7_witness :
    (importEncryptionKey (some "u") 0 true
        (AppState.mk [("encryptionKey_u", "OLD")] [] none false "" "" false "!!!" [])).localStorage =
      [("encryptionKey_u", "OLD")] ∧
    (importEncryptionKey (some "u") 0 true
        (AppState.mk [("encryptionKey_u", "OLD")] [] none false "" "" false "!!!" [])).errorMessage =
      "Invalid encryption key format" :=
  (claim_C7_import_validation "u" 0 true
    (AppState.mk [("encryptionKey_u", "OLD")] [] none false "" "" false "!!!" [])
    (by decide)).1 rfl

/-- Counterexample to C8 as stated: on the Transactions page, with no cached
key for the user, initializeEncryption generates and caches a key but never
writes any remote backup — the profile collection stays empty. -/
theorem claim_C8_counterexample :
    lookupAssoc (AppState.mk [] [] none false "" "" false "" []).localStorage
        "encryptionKey_u" = none ∧
    lookupAssoc (initializeEncryptionTx (some "u") none (List.range 32)
        (AppState.mk [] [] none false "" "" false "" [])).1.localStorage "encryptionKey_u" =
      some (exportKey (List.range 32)) ∧
    (initializeEncryptionTx (some "u") none (List.range 32)
        (AppState.mk [] [] none false "" "" false "" [])).1.firestoreUsers = [] := by
  refine ⟨rfl, ?_, rfl⟩
  decide

/-- Claim C8 (amended, for the Add-Data page's initializeEncryption, the one
that has the Firestore backup): with no locally cached key, it obtains a key
from getMasterKey, exports and caches it under encryptionKey_<uid>, marks
encryption initialized without throwing, and best-effort writes the backup
(exported key plus timestamp) to the user's profile record; a remote write
failure only appends to the log and leaves the profile collection alone. -/
theorem claim_C8_init_caches_and_backs_up (uid : String) (envKey : Option String)
    (randomKey : Key) (now : Nat) (remoteOk : Bool) (st st2 : AppState)
    (e : Except String Unit)
    (hnone : lookupAssoc st.localStorage ("encryptionKey_" ++ uid) = none)
    (hres : initializeEncryption (some uid) envKey randomKey now remoteOk st = (st2, e)) :
    e = Except.ok () ∧
    st2.encryptionKey = some (getMasterKey envKey uid randomKey) ∧
    lookupAssoc st2.localStorage ("encryptionKey_" ++ uid) =
      some (exportKey (getMasterKey envKey uid randomKey)) ∧
    st2.isEncryptionInitialized = true ∧
    (remoteOk = true → lookupAssoc st2.firestoreUsers uid =
      some (UserProfile.mk (some (exportKey (getMasterKey envKey uid randomKey)))
        (some now) (some now))) ∧
    (remoteOk = false → st2.firestoreUsers = st.firestoreUsers ∧
      st2.log = st.log ++ ["Error storing encryption key in Firestore"]) := by
  have hself : lookupAssoc (setAssoc st.localStorage ("encryptionKey_" ++ uid)
      (exportKey (getMasterKey envKey uid randomKey))) ("encryptionKey_" ++ uid) =
      some (exportKey (getMasterKey envKey uid randomKey)) :=
    lookupAssoc_setAssoc_self _ _ _
  cases remoteOk
  · simp only [initializeEncryption, hnone, storeEncryptionKeyInFirestore,
      Bool.false_eq_true, if_false] at hres
    rw [Prod.ext_iff] at hres
    obtain ⟨h1, h2⟩ := hres
    subst h1
    subst h2
    simp [hself]
  · simp only [initializeEncryption, hnone, storeEncryptionKeyInFirestore, if_true] at hres
    rw [Prod.ext_iff] at hres
    obtain ⟨h1, h2⟩ := hres
    subst h1
    subst h2
    simp [hself, lookupAssoc_setAssoc_self]

/-- Witness for the amended C8 at a concrete user and state, exercising the
logged non-fatal remote failure. -/
theorem claim_C8_witness :
    (initializeEncryption (some "u") none (List.range 32) 5 false
        (AppState.mk [] [] none false "" "" false "" [])).2 = Except.ok () ∧
    (initializeEncryption (some "u") none (List.range 32) 5 false
        (AppState.mk [] [] none false "" "" false "" [])).1.encryptionKey =
      some (getMasterKey none "u" (List.range 32)) ∧
    lookupAssoc (initializeEncryption (some "u") none (List.range 32) 5 false
        (AppState.mk [] [] none false "" "" false "" [])).1.localStorage ("encryptionKey_" ++ "u") =
      some (exportKey (getMasterKey none "u" (List.range 32))) ∧
    (initializeEncryption (some "u") none (List.range 32) 5 false
        (AppState.mk [] [] none false "" "" false "" [])).1.isEncryptionInitialized = true ∧
    (false = true → lookupAssoc (initializeEncryption (some "u") none (List.range 32) 5 false
        (AppState.mk [] [] none false "" "" false "" [])).1.firestoreUsers "u" =
      some (UserProfile.mk (some (exportKey (getMasterKey none "u" (List.range 32))))
        (some 5) (some 5))) ∧
    (false = false → (initializeEncryption (some "u") none (List.range 32) 5 false
        (AppState.mk [] [] none false "" "" false "" [])).1.firestoreUsers =
        (AppState.mk [] [] none false "" "" false "" []).firestoreUsers ∧
      (initializeEncryption (some "u") none (List.range 32) 5 false
        (AppState.mk [] [] none false "" "" false "" [])).1.log =
        (AppState.mk [] [] none false "" "" false "" []).log ++
          ["Error storing encryption key in Firestore"]) :=
  claim_C8_init_caches_and_backs_up "u" none (List.range 32) 5 false
    (AppState.mk [] [] none false "" "" false "" [])
    (initializeEncryption (some "u") none (List.range 32) 5 false
      (AppState.mk [] [] none false "" "" false "" [])).1
    (initializeEncryption (some "u") none (List.range 32) 5 false
      (AppState.mk [] [] none false "" "" false "" [])).2
    rfl rfl

end Kash
